import Mathlib

/-!
# Keyboard-AI: the llama.cpp wrapper (`Vendor/llama_wrapper.cpp`)

A shallow embedding of the real-engine build of the three exported functions
`kb_llm_init`, `kb_llm_unload` and `kb_llm_generate`.

* The two file-level globals `g_model` and `g_ctx` are the fields of `Session`.
* The inference engine (llama.cpp) is not part of the wrapper; every value the
  wrapper receives from it is read from an engine record (`InitEngine`,
  `GenEngine`), so that a property proved for every engine record holds for
  every behaviour of the library.
* Every call into the engine, every `fprintf`, the `malloc` and the store into
  `*out_text` is recorded, in program order, in a list of `Event`s.
* `float` arguments are only compared with the literals `0.0f` and `1.0f`; they
  are modelled by `F32` (NaN, the two infinities, or a rational value) with the
  IEEE-754 comparison rules.
* `kb_llm_generate` negates the `int32_t` value of the first `llama_tokenize`
  call. For `INT32_MIN` that negation overflows and the behaviour of the call
  is undefined from there on: the embedding stops the event list at that point
  and gives the call no return value (`ret = none`).
* The allocations made by `std::vector` and `std::string` are taken to
  succeed; only the `malloc` of the output buffer can fail.
-/

namespace KeyboardAI

/-! ## Data model -/

/-- Non-null pointer to an engine object (`llama_model *`, `llama_context *`). -/
abbrev Handle := Nat

/-- The type `llama_token` (a 32-bit signed integer). -/
abbrev Token := Int

/-- One `char`. -/
abbrev Byte := Nat

/-- A `float` value, as far as comparisons can tell: NaN, minus infinity, a
finite value (both zeros are `fin 0`), or plus infinity. -/
inductive F32 where
  | nan
  | ninf
  | fin (q : ℚ)
  | pinf
  deriving DecidableEq

/-- IEEE-754 `a < b`: false as soon as one side is NaN. -/
def F32.lt : F32 → F32 → Bool
  | .nan, _ => false
  | _, .nan => false
  | .ninf, .ninf => false
  | .ninf, _ => true
  | _, .ninf => false
  | .pinf, _ => false
  | .fin _, .pinf => true
  | .fin a, .fin b => decide (a < b)

/-- IEEE-754 `a <= b`: false as soon as one side is NaN. -/
def F32.le : F32 → F32 → Bool
  | .nan, _ => false
  | _, .nan => false
  | .ninf, _ => true
  | _, .ninf => false
  | _, .pinf => true
  | .pinf, .fin _ => false
  | .fin a, .fin b => decide (a ≤ b)

/-- IEEE-754 `a > b`. -/
def F32.gt (a b : F32) : Bool := F32.lt b a

/-- IEEE-754 `a != b`: true as soon as one side is NaN. -/
def F32.ne : F32 → F32 → Bool
  | .nan, _ => true
  | _, .nan => true
  | a, b => decide (a ≠ b)

/-- The literal `0.0f`. -/
def F32.zero : F32 := .fin 0

/-- The literal `1.0f`. -/
def F32.one : F32 := .fin 1

/-- Conversion to a 32-bit signed integer (two's complement wrap-around). -/
def wrap32 (x : Int) : Int := (x + 2 ^ 31) % 2 ^ 32 - 2 ^ 31

/-- The least `int32_t` value; `llama_tokenize` returns it when the number of
tokens does not fit in 32 bits. -/
def INT32_MIN : Int := -2147483648

/-- The cast `(uint32_t) x`. -/
def toU32 (x : Int) : Nat := (x % 2 ^ 32).toNat

/-- The globals `g_model` and `g_ctx`; `none` is `nullptr`. -/
structure Session where
  g_model : Option Handle
  g_ctx : Option Handle
  deriving DecidableEq, Repr

/-- The value of both globals at program start. -/
def Session.unloaded : Session := ⟨none, none⟩

/-- Both handles are present. -/
def Session.ready (s : Session) : Bool := s.g_ctx.isSome && s.g_model.isSome

/-- One sampler object handed to `llama_sampler_chain_add`. -/
inductive Stage where
  | top_k (k : Int)
  | top_p (p : F32) (min_keep : Nat)
  | temp (t : F32)
  | greedy
  | dist (seed : Nat)
  deriving DecidableEq

/-- The stages that pick the token: `greedy` and `dist`. -/
def Stage.isSelector : Stage → Bool
  | .greedy => true
  | .dist _ => true
  | _ => false

/-- The diagnostic lines written to `stderr`. -/
inductive LogMsg where
  | using_real
  | model_load_failed
  | init_from_model_failed
  | generate_without_session
  | decode_failed_for_prompt
  | decode_failed_during_generation
  deriving DecidableEq

/-- What the wrapper does to the outside world, one constructor per call site:
`decode_prompt` is the `llama_decode` call on the prompt batch, `decode_token`
the one on the batch made of the sampled token. -/
inductive Event where
  | log (m : LogMsg)
  | backend_init
  | model_load_from_file (path : Option (List Byte)) (n_gpu_layers : Int)
  | init_from_model (model : Handle) (n_ctx n_threads n_threads_batch : Int)
  | free_ctx (ctx : Handle)
  | model_free (model : Handle)
  | backend_free
  | model_get_vocab (model : Handle)
  | sampler_chain_init (no_perf : Bool)
  | sampler_chain_add (s : Stage)
  | tokenize (text_len : Int) (n_tokens_max : Int)
  | decode_prompt (ctx : Handle) (n_tokens : Int)
  | decode_token (ctx : Handle) (id : Token)
  | sampler_sample (ctx : Handle)
  | vocab_is_eog (id : Token)
  | token_to_piece (id : Token) (length : Int)
  | sampler_accept (id : Token)
  | sampler_free
  | malloc (size : Nat)
  | store_out_text
  deriving DecidableEq

/-! ## `kb_llm_init` and `kb_llm_unload` -/

/-- What the engine answers during one `kb_llm_init` call; `none` is a null
pointer. -/
structure InitEngine where
  model_load_from_file : Option (List Byte) → Option Handle
  init_from_model : Handle → Int → Int → Option Handle

/-- Result of a call that only touches the session. -/
structure CallResult where
  ret : Int
  session : Session
  events : List Event

/-- The function `kb_llm_init`. -/
def kb_llm_init (e : InitEngine) (model_path : Option (List Byte)) (n_ctx n_threads : Int)
    (s : Session) : CallResult :=
  if s.g_ctx.isSome then ⟨1, s, []⟩
  else
    let g_model := e.model_load_from_file model_path
    match g_model with
    | none =>
      ⟨0, ⟨none, s.g_ctx⟩,
        [.log .using_real, .backend_init, .model_load_from_file model_path 999,
         .log .model_load_failed]⟩
    | some m =>
      let g_ctx := e.init_from_model m n_ctx n_threads
      match g_ctx with
      | none =>
        ⟨0, ⟨some m, none⟩,
          [.log .using_real, .backend_init, .model_load_from_file model_path 999,
           .init_from_model m n_ctx n_threads n_threads, .log .init_from_model_failed]⟩
      | some c =>
        ⟨1, ⟨some m, some c⟩,
          [.log .using_real, .backend_init, .model_load_from_file model_path 999,
           .init_from_model m n_ctx n_threads n_threads]⟩

/-- The function `kb_llm_unload`. -/
def kb_llm_unload (s : Session) : CallResult :=
  let ev₁ : List Event := match s.g_ctx with
    | some c => [.free_ctx c]
    | none => []
  let ev₂ : List Event := match s.g_model with
    | some m => [.model_free m]
    | none => []
  ⟨1, ⟨none, none⟩, ev₁ ++ ev₂ ++ [.backend_free]⟩

/-! ## `kb_llm_generate` -/

/-- What `llama_token_to_piece` leaves behind: its return value and the bytes
found from the start of `buf` onwards. Indices from 128 on lie outside the
array `buf`; the source reads them only when `n` exceeds the size of the
array. -/
structure Piece where
  n : Int
  buf : Nat → Byte

/-- What the engine answers during one `kb_llm_generate` call. The answers of
the sampling loop are indexed by the loop counter `i`. -/
structure GenEngine where
  /-- The function `llama_model_get_vocab` returns a non-null pointer. -/
  model_get_vocab : Handle → Bool
  /-- The value of `llama_time_us ()`. -/
  time_us : Int
  /-- The value of `llama_tokenize` called with a null buffer. -/
  tokenize_size : List Byte → Int → Int
  /-- The value of `llama_tokenize` called with the token vector. -/
  tokenize_fill : List Byte → Int → Int → Int
  /-- The value of `llama_decode` on the prompt batch. -/
  decode_prompt : Int → Int
  /-- The value of `llama_sampler_sample` in iteration `i`. -/
  sampler_sample : Nat → Token
  /-- The value of `llama_vocab_is_eog` in iteration `i`. -/
  vocab_is_eog : Nat → Token → Bool
  /-- The effect of `llama_token_to_piece` in iteration `i`. -/
  token_to_piece : Nat → Token → Nat → Piece
  /-- The value of `llama_decode` on the sampled token in iteration `i`. -/
  decode_step : Nat → Token → Int
  /-- The call `malloc (size)` returns a non-null pointer. -/
  malloc : Nat → Bool

/-- Size of the local array `char buf[128]`. -/
def BUF_SIZE : Nat := 128

/-- The sampler chain built from the request parameters (source lines 64-76):
the argument of each `llama_sampler_chain_add`, in program order. The seed of
the distribution sampler is `(uint32_t) llama_time_us ()`. -/
def sampler_chain (temp : F32) (top_k : Int) (top_p : F32) (time_us : Int) : List Stage :=
  let smpl : List Stage := []
  let smpl := if top_k > 0 then smpl ++ [.top_k top_k] else smpl
  let smpl := if top_p.lt F32.one then smpl ++ [.top_p top_p 1] else smpl
  let smpl := if temp.gt F32.zero && temp.ne F32.one then smpl ++ [.temp temp] else smpl
  if temp.le F32.zero then smpl ++ [.greedy]
  else smpl ++ [.dist (toU32 time_us)]

/-- The call `out.append (buf, n)`: the `n` bytes starting at `buf`. -/
def append_buf (out : List Byte) (buf : Nat → Byte) (n : Nat) : List Byte :=
  out ++ (List.range n).map buf

/-- The sampling loop `for (int i = 0; i < max_tokens; ++i)` (source lines
97-113), entered with `remaining = max_tokens - i` iterations to go. Returns
the string `out` and the events of the loop. -/
def gen_loop (e : GenEngine) (ctx : Handle) :
    (remaining : Nat) → (i : Nat) → (out : List Byte) → List Byte × List Event
  | 0, _, out => (out, [])
  | remaining + 1, i, out =>
    let id := e.sampler_sample i
    if e.vocab_is_eog i id then (out, [.sampler_sample ctx, .vocab_is_eog id])
    else
      let p := e.token_to_piece i id BUF_SIZE
      let out := if p.n > 0 then append_buf out p.buf p.n.toNat else out
      if e.decode_step i id ≠ 0 then
        (out, [.sampler_sample ctx, .vocab_is_eog id, .token_to_piece id BUF_SIZE,
               .decode_token ctx id, .log .decode_failed_during_generation])
      else
        let r := gen_loop e ctx remaining (i + 1) out
        (r.1, [.sampler_sample ctx, .vocab_is_eog id, .token_to_piece id BUF_SIZE,
               .decode_token ctx id, .sampler_accept id] ++ r.2)

/-- Result of `kb_llm_generate`: the return value (`none` when the call has no
defined return value), the content of the slot `*out_text` (`none` for a null
pointer, otherwise the bytes of the buffer it points to), the session and the
events. -/
structure GenResult where
  ret : Option Int
  out_text : Option (List Byte)
  session : Session
  events : List Event

/-- The function `kb_llm_generate`. The parameter `out_text` is the content of
the caller's slot before the call. When the first `llama_tokenize` call
returns `INT32_MIN` the negation at source line 80 overflows: the result has
no return value and its events end with that call, the sampler chain still
live. -/
def kb_llm_generate (e : GenEngine) (prompt : List Byte) (max_tokens : Int) (temp : F32)
    (top_k : Int) (top_p : F32) (out_text : Option (List Byte)) (s : Session) : GenResult :=
  match s.g_ctx, s.g_model with
  | some g_ctx, some g_model =>
    if !e.model_get_vocab g_model then ⟨some 0, out_text, s, [.model_get_vocab g_model]⟩
    else
      let smpl := sampler_chain temp top_k top_p e.time_us
      let ev₀ : List Event := [.model_get_vocab g_model, .sampler_chain_init true] ++
        smpl.map .sampler_chain_add
      let text_len := wrap32 prompt.length
      if e.tokenize_size prompt text_len = INT32_MIN then
        ⟨none, out_text, s, ev₀ ++ [.tokenize text_len 0]⟩
      else
        let n_prompt := wrap32 (-(e.tokenize_size prompt text_len))
        if n_prompt ≤ 0 then
          ⟨some 0, out_text, s, ev₀ ++ [.tokenize text_len 0, .sampler_free]⟩
        else if e.tokenize_fill prompt text_len n_prompt < 0 then
          ⟨some 0, out_text, s,
            ev₀ ++ [.tokenize text_len 0, .tokenize text_len n_prompt, .sampler_free]⟩
        else if e.decode_prompt n_prompt ≠ 0 then
          ⟨some 0, out_text, s,
            ev₀ ++ [.tokenize text_len 0, .tokenize text_len n_prompt,
                    .decode_prompt g_ctx n_prompt, .sampler_free,
                    .log .decode_failed_for_prompt]⟩
        else
          let r := gen_loop e g_ctx max_tokens.toNat 0 []
          let out := r.1
          let ev₁ := ev₀ ++ [.tokenize text_len 0, .tokenize text_len n_prompt,
                             .decode_prompt g_ctx n_prompt] ++ r.2 ++ [.sampler_free]
          if !e.malloc (out.length + 1) then
            ⟨some 0, out_text, s, ev₁ ++ [.malloc (out.length + 1)]⟩
          else
            ⟨some 1, some (out ++ [0]), s,
              ev₁ ++ [.malloc (out.length + 1), .store_out_text]⟩
  | _, _ => ⟨some 0, out_text, s, [.log .generate_without_session]⟩

/-! ## Session lifecycle -/

/-- One call of the exported interface, with the engine answers it meets. -/
inductive Call where
  | init (e : InitEngine) (model_path : Option (List Byte)) (n_ctx n_threads : Int)
  | generate (e : GenEngine) (prompt : List Byte) (max_tokens : Int) (temp : F32)
      (top_k : Int) (top_p : F32) (out_text : Option (List Byte))
  | unload

/-- The session after one call. -/
def Call.step (s : Session) : Call → Session
  | .init e model_path n_ctx n_threads => (kb_llm_init e model_path n_ctx n_threads s).session
  | .generate e prompt max_tokens temp top_k top_p out_text =>
    (kb_llm_generate e prompt max_tokens temp top_k top_p out_text s).session
  | .unload => (kb_llm_unload s).session

/-- The session after a sequence of calls made on a freshly started program. -/
def reached (calls : List Call) : Session := calls.foldl Call.step Session.unloaded

/-- The sampler pipeline in the words of the specification: an optional top-k
filter, an optional top-p filter with minimum-keep 1, an optional temperature
stage, and one final selector. -/
def pipeline_spec (temperature : F32) (top_k : Int) (top_p : F32) (timestamp : Int) :
    List Stage :=
  (if top_k > 0 then [Stage.top_k top_k] else []) ++
  (if top_p.lt F32.one then [Stage.top_p top_p 1] else []) ++
  (if temperature.gt F32.zero ∧ temperature.ne F32.one then [Stage.temp temperature] else []) ++
  [if temperature.le F32.zero then Stage.greedy else Stage.dist (toU32 timestamp)]

/-- The stage added by a `llama_sampler_chain_add` call. -/
def Event.stage? : Event → Option Stage
  | .sampler_chain_add st => some st
  | _ => none

/-- The stages added to the sampler chain, read off an event list. -/
def added_stages (ev : List Event) : List Stage := ev.filterMap Event.stage?

/-- The sampler chain is built: the session is ready and the vocabulary is
available. -/
def builds_sampler (e : GenEngine) (s : Session) : Bool :=
  match s.g_ctx, s.g_model with
  | some _, some m => e.model_get_vocab m
  | _, _ => false

/-! ## The sampling loop, read off the engine answers -/

/-- The bytes appended to `out` in iteration `i`, when that iteration gets as
far as `llama_token_to_piece`: the first `n` bytes from `buf` if the return
value `n` is positive, nothing otherwise. -/
def fragment (e : GenEngine) (i : Nat) : List Byte :=
  if (e.token_to_piece i (e.sampler_sample i) BUF_SIZE).n > 0 then
    (List.range (e.token_to_piece i (e.sampler_sample i) BUF_SIZE).n.toNat).map
      (e.token_to_piece i (e.sampler_sample i) BUF_SIZE).buf
  else []

/-- The fragments of iterations `i, i+1, ..., i+n-1`, concatenated in that
order. -/
def fragments_from (e : GenEngine) : (i : Nat) → (n : Nat) → List Byte
  | _, 0 => []
  | i, n + 1 => fragment e i ++ fragments_from e (i + 1) n

/-- Number of iterations that reach `llama_token_to_piece` when the loop is
entered at counter `i` with `remaining` iterations to go. -/
def n_appended (e : GenEngine) : (remaining : Nat) → (i : Nat) → Nat
  | 0, _ => 0
  | remaining + 1, i =>
    if e.vocab_is_eog i (e.sampler_sample i) then 0
    else if e.decode_step i (e.sampler_sample i) ≠ 0 then 1
    else 1 + n_appended e remaining (i + 1)

/-- Number of `llama_sampler_sample` calls when the loop is entered at counter
`i` with `remaining` iterations to go. -/
def n_sampled (e : GenEngine) : (remaining : Nat) → (i : Nat) → Nat
  | 0, _ => 0
  | remaining + 1, i =>
    if e.vocab_is_eog i (e.sampler_sample i) then 1
    else if e.decode_step i (e.sampler_sample i) ≠ 0 then 1
    else 1 + n_sampled e remaining (i + 1)

/-- The kinds of event the sampling loop produces. -/
def Event.inLoop : Event → Bool
  | .sampler_sample _ => true
  | .vocab_is_eog _ => true
  | .token_to_piece _ _ => true
  | .decode_token _ _ => true
  | .sampler_accept _ => true
  | .log _ => true
  | _ => false

/-- The event is a `llama_sampler_sample` call. -/
def Event.isSample : Event → Bool
  | .sampler_sample _ => true
  | _ => false

/-- Life cycle of the sampler chain of one `kb_llm_generate` call. -/
inductive SamplerState where
  | absent
  | live
  | released
  deriving DecidableEq

/-- Effect of one event on the sampler chain; `none` when the event breaks the
protocol: a second creation, a use (`llama_sampler_chain_add`,
`llama_sampler_sample`, `llama_sampler_accept`) or a release of a chain that is
not live, or a store into `*out_text` before the chain is released. -/
def SamplerState.step : SamplerState → Event → Option SamplerState
  | .absent, .sampler_chain_init _ => some .live
  | _, .sampler_chain_init _ => none
  | .live, .sampler_chain_add _ => some .live
  | _, .sampler_chain_add _ => none
  | .live, .sampler_sample _ => some .live
  | _, .sampler_sample _ => none
  | .live, .sampler_accept _ => some .live
  | _, .sampler_accept _ => none
  | .live, .sampler_free => some .released
  | _, .sampler_free => none
  | .released, .store_out_text => some .released
  | _, .store_out_text => none
  | st, _ => some st

/-- Effect of an event list on the sampler chain. -/
def SamplerState.run : SamplerState → List Event → Option SamplerState
  | st, [] => some st
  | st, x :: xs =>
    match st.step x with
    | none => none
    | some st' => SamplerState.run st' xs

/-- The event is a `llama_sampler_chain_init` call. -/
def Event.isCreate : Event → Bool
  | .sampler_chain_init _ => true
  | _ => false

/-- The event is a `llama_sampler_free` call. -/
def Event.isRelease : Event → Bool
  | .sampler_free => true
  | _ => false

/-- Number of `llama_sampler_chain_init` calls. -/
def n_created (ev : List Event) : Nat := ev.countP Event.isCreate

/-- Number of `llama_sampler_free` calls. -/
def n_released (ev : List Event) : Nat := ev.countP Event.isRelease

/-! ## Concrete engines -/

/-- An engine whose model load returns the handle 1 and whose context creation
fails. -/
def engine_no_context : InitEngine := ⟨fun _ => some 1, fun _ _ _ => none⟩

/-- An engine whose model load returns the handle 9 and whose context creation
returns the handle 3. -/
def engine_second_try : InitEngine := ⟨fun _ => some 9, fun _ _ _ => some 3⟩

/-- An answer of `llama_token_to_piece` for a token whose text is `text` and a
buffer of `length` bytes: the text is copied and its size returned when it
fits, otherwise nothing is copied and the negated size is returned. -/
def piece_of_text (text : List Byte) (length : Nat) : Piece :=
  if text.length ≤ length then ⟨text.length, fun j => text.getD j 0⟩
  else ⟨-(text.length : Int), fun _ => 0⟩

/-- An engine that tokenizes every prompt into one token, always samples token
5 with the one-byte text `h`, fails every single-token decode and has no
memory left for the output buffer. -/
def engine_decode_and_malloc_fail : GenEngine where
  model_get_vocab := fun _ => true
  time_us := 0
  tokenize_size := fun _ _ => -1
  tokenize_fill := fun _ _ _ => 1
  decode_prompt := fun _ => 0
  sampler_sample := fun _ => 5
  vocab_is_eog := fun _ _ => false
  token_to_piece := fun _ _ length => piece_of_text [104] length
  decode_step := fun _ _ => 1
  malloc := fun _ => false

/-- An engine that tokenizes every prompt into one token and always samples
token 7, whose text is 130 bytes `a`; every decode and the allocation
succeed. -/
def engine_long_piece : GenEngine where
  model_get_vocab := fun _ => true
  time_us := 0
  tokenize_size := fun _ _ => -1
  tokenize_fill := fun _ _ _ => 1
  decode_prompt := fun _ => 0
  sampler_sample := fun _ => 7
  vocab_is_eog := fun _ _ => false
  token_to_piece := fun _ _ length => piece_of_text (List.replicate 130 97) length
  decode_step := fun _ _ => 0
  malloc := fun _ => true

/-- An engine that tokenizes every prompt into three tokens and samples token
`i` in iteration `i`; token 2 is the end-of-generation token, every other token
has the two-byte text `i, i+1`; the decode of token 1 fails. -/
def engine_small : GenEngine where
  model_get_vocab := fun _ => true
  time_us := 5
  tokenize_size := fun _ _ => -3
  tokenize_fill := fun _ _ _ => 3
  decode_prompt := fun _ => 0
  sampler_sample := fun i => i
  vocab_is_eog := fun _ id => id == 2
  token_to_piece := fun _ id length => piece_of_text [id.toNat, id.toNat + 1] length
  decode_step := fun i _ => if i = 1 then 1 else 0
  malloc := fun _ => true

/-! ## Lemmas -/

theorem kb_llm_generate_session (e : GenEngine) (prompt : List Byte) (max_tokens : Int)
    (temp : F32) (top_k : Int) (top_p : F32) (out_text : Option (List Byte)) (s : Session) :
    (kb_llm_generate e prompt max_tokens temp top_k top_p out_text s).session = s := by
  unfold kb_llm_generate
  split
  · dsimp only
    split_ifs <;> rfl
  · rfl

theorem step_ctx_model (s : Session) (c : Call) (h : s.g_ctx.isSome → s.g_model.isSome) :
    (c.step s).g_ctx.isSome → (c.step s).g_model.isSome := by
  cases c with
  | init e model_path n_ctx n_threads =>
    simp only [Call.step, kb_llm_init]
    split_ifs with h1
    · exact h
    · split
      · simpa using h1
      · split <;> simp
  | generate e prompt max_tokens temp top_k top_p out_text =>
    simpa only [Call.step, kb_llm_generate_session] using h
  | unload => simp [Call.step, kb_llm_unload]

theorem foldl_ctx_model (calls : List Call) (s : Session)
    (h : s.g_ctx.isSome → s.g_model.isSome) :
    (calls.foldl Call.step s).g_ctx.isSome → (calls.foldl Call.step s).g_model.isSome := by
  induction calls generalizing s with
  | nil => simpa using h
  | cons c cs ih => exact ih (c.step s) (step_ctx_model s c h)

theorem reached_ctx_model (calls : List Call) :
    (reached calls).g_ctx.isSome → (reached calls).g_model.isSome :=
  foldl_ctx_model calls Session.unloaded (by simp [Session.unloaded])

/-! ### The sampling loop -/

theorem gen_loop_eog (e : GenEngine) (ctx : Handle) (r i : Nat) (out : List Byte)
    (h : e.vocab_is_eog i (e.sampler_sample i) = true) :
    gen_loop e ctx (r + 1) i out =
      (out, [.sampler_sample ctx, .vocab_is_eog (e.sampler_sample i)]) := by
  simp [gen_loop, h]

theorem gen_loop_fail (e : GenEngine) (ctx : Handle) (r i : Nat) (out : List Byte)
    (h : e.vocab_is_eog i (e.sampler_sample i) = false)
    (hd : e.decode_step i (e.sampler_sample i) ≠ 0) :
    gen_loop e ctx (r + 1) i out =
      (out ++ fragment e i,
       [.sampler_sample ctx, .vocab_is_eog (e.sampler_sample i),
        .token_to_piece (e.sampler_sample i) BUF_SIZE,
        .decode_token ctx (e.sampler_sample i),
        .log .decode_failed_during_generation]) := by
  rw [gen_loop]
  by_cases hn : (e.token_to_piece i (e.sampler_sample i) BUF_SIZE).n > 0 <;>
    simp [h, hd, hn, fragment, append_buf]

theorem gen_loop_next (e : GenEngine) (ctx : Handle) (r i : Nat) (out : List Byte)
    (h : e.vocab_is_eog i (e.sampler_sample i) = false)
    (hd : e.decode_step i (e.sampler_sample i) = 0) :
    gen_loop e ctx (r + 1) i out =
      ((gen_loop e ctx r (i + 1) (out ++ fragment e i)).1,
       [.sampler_sample ctx, .vocab_is_eog (e.sampler_sample i),
        .token_to_piece (e.sampler_sample i) BUF_SIZE,
        .decode_token ctx (e.sampler_sample i),
        .sampler_accept (e.sampler_sample i)] ++
        (gen_loop e ctx r (i + 1) (out ++ fragment e i)).2) := by
  rw [gen_loop]
  by_cases hn : (e.token_to_piece i (e.sampler_sample i) BUF_SIZE).n > 0 <;>
    simp [h, hd, hn, fragment, append_buf]

theorem gen_loop_out (e : GenEngine) (ctx : Handle) (r i : Nat) (out : List Byte) :
    (gen_loop e ctx r i out).1 = out ++ fragments_from e i (n_appended e r i) := by
  induction r generalizing i out with
  | zero => simp [gen_loop, n_appended, fragments_from]
  | succ r ih =>
    by_cases h : e.vocab_is_eog i (e.sampler_sample i) = true
    · simp [gen_loop_eog e ctx r i out h, n_appended, h, fragments_from]
    · simp only [Bool.not_eq_true] at h
      by_cases hd : e.decode_step i (e.sampler_sample i) = 0
      · rw [gen_loop_next e ctx r i out h hd, ih]
        simp [n_appended, h, hd, Nat.add_comm 1, fragments_from]
      · rw [gen_loop_fail e ctx r i out h hd]
        simp [n_appended, h, hd, fragments_from]

theorem gen_loop_inLoop (e : GenEngine) (ctx : Handle) (r i : Nat) (out : List Byte) :
    ∀ x ∈ (gen_loop e ctx r i out).2, x.inLoop = true := by
  induction r generalizing i out with
  | zero => simp [gen_loop]
  | succ r ih =>
    by_cases h : e.vocab_is_eog i (e.sampler_sample i) = true
    · simp [gen_loop_eog e ctx r i out h, Event.inLoop]
    · simp only [Bool.not_eq_true] at h
      by_cases hd : e.decode_step i (e.sampler_sample i) = 0
      · rw [gen_loop_next e ctx r i out h hd]
        intro x hx
        simp only [List.mem_append, List.mem_cons, List.mem_singleton, List.not_mem_nil,
          or_false] at hx
        rcases hx with (hx | hx | hx | hx | hx) | hx
        · subst hx; rfl
        · subst hx; rfl
        · subst hx; rfl
        · subst hx; rfl
        · subst hx; rfl
        · exact ih _ _ x hx
      · simp [gen_loop_fail e ctx r i out h hd, Event.inLoop]

theorem gen_loop_count_samples (e : GenEngine) (ctx : Handle) (r i : Nat) (out : List Byte) :
    (gen_loop e ctx r i out).2.countP Event.isSample = n_sampled e r i := by
  induction r generalizing i out with
  | zero => simp [gen_loop, n_sampled]
  | succ r ih =>
    by_cases h : e.vocab_is_eog i (e.sampler_sample i) = true
    · simp [gen_loop_eog e ctx r i out h, n_sampled, h, Event.isSample, List.countP_cons]
    · simp only [Bool.not_eq_true] at h
      by_cases hd : e.decode_step i (e.sampler_sample i) = 0
      · rw [gen_loop_next e ctx r i out h hd]
        simp [n_sampled, h, hd, Event.isSample, List.countP_cons, List.countP_append, ih,
          Nat.add_comm 1]
      · simp [gen_loop_fail e ctx r i out h hd, n_sampled, h, hd, Event.isSample,
          List.countP_cons]

theorem n_appended_le (e : GenEngine) (r i : Nat) : n_appended e r i ≤ r := by
  induction r generalizing i with
  | zero => simp [n_appended]
  | succ r ih =>
    simp only [n_appended]
    split_ifs
    · omega
    · omega
    · have := ih (i + 1); omega

theorem n_sampled_le (e : GenEngine) (r i : Nat) : n_sampled e r i ≤ r := by
  induction r generalizing i with
  | zero => simp [n_sampled]
  | succ r ih =>
    simp only [n_sampled]
    split_ifs
    · omega
    · omega
    · have := ih (i + 1); omega

theorem n_appended_not_eog (e : GenEngine) (r i j : Nat) (h : j < n_appended e r i) :
    e.vocab_is_eog (i + j) (e.sampler_sample (i + j)) = false := by
  induction r generalizing i j with
  | zero => simp [n_appended] at h
  | succ r ih =>
    simp only [n_appended] at h
    split_ifs at h with h1 h2
    · omega
    · have : j = 0 := by omega
      subst this; simpa using h1
    · cases j with
      | zero => simpa using h1
      | succ j =>
        have := ih (i + 1) j (by omega)
        rwa [show i + 1 + j = i + (j + 1) by omega] at this

theorem fragments_from_append (e : GenEngine) (i a b : Nat) :
    fragments_from e i (a + b) = fragments_from e i a ++ fragments_from e (i + a) b := by
  induction a generalizing i with
  | zero => simp [fragments_from]
  | succ a ih =>
    rw [show a + 1 + b = (a + b) + 1 by omega]
    simp only [fragments_from, ih, List.append_assoc]
    rw [show i + 1 + a = i + (a + 1) by omega]

theorem fragment_length_le (e : GenEngine) (i : Nat)
    (hfit : ∀ j id, (e.token_to_piece j id BUF_SIZE).n ≤ BUF_SIZE) :
    (fragment e i).length ≤ BUF_SIZE := by
  unfold fragment
  split_ifs with h
  · simp only [List.length_map, List.length_range]
    have := hfit i (e.sampler_sample i)
    omega
  · simp

theorem fragments_from_length_le (e : GenEngine) (i n : Nat)
    (hfit : ∀ j id, (e.token_to_piece j id BUF_SIZE).n ≤ BUF_SIZE) :
    (fragments_from e i n).length ≤ BUF_SIZE * n := by
  induction n generalizing i with
  | zero => simp [fragments_from]
  | succ n ih =>
    simp only [fragments_from, List.length_append]
    have h1 := fragment_length_le e i hfit
    have h2 := ih (i + 1)
    rw [Nat.mul_succ]
    omega

/-! ### Event lists made of loop events -/

theorem stage?_of_inLoop (x : Event) (h : x.inLoop = true) : x.stage? = none := by
  cases x <;> first | rfl | cases h

theorem isCreate_of_inLoop (x : Event) (h : x.inLoop = true) : x.isCreate = false := by
  cases x <;> first | rfl | cases h

theorem isRelease_of_inLoop (x : Event) (h : x.inLoop = true) : x.isRelease = false := by
  cases x <;> first | rfl | cases h

theorem step_live_of_inLoop (x : Event) (h : x.inLoop = true) :
    SamplerState.step .live x = some .live := by
  cases x <;> first | rfl | cases h

theorem added_stages_of_inLoop (l : List Event) (h : ∀ x ∈ l, x.inLoop = true) :
    added_stages l = [] := by
  induction l with
  | nil => rfl
  | cons x xs ih =>
    have hx := stage?_of_inLoop x (h x (List.mem_cons_self _ _))
    have hxs := ih (fun y hy => h y (List.mem_cons_of_mem _ hy))
    unfold added_stages at hxs ⊢
    rw [List.filterMap_cons, hx]
    exact hxs

theorem n_created_of_inLoop (l : List Event) (h : ∀ x ∈ l, x.inLoop = true) :
    n_created l = 0 := by
  unfold n_created
  rw [List.countP_eq_zero]
  intro x hx
  simp [isCreate_of_inLoop x (h x hx)]

theorem n_released_of_inLoop (l : List Event) (h : ∀ x ∈ l, x.inLoop = true) :
    n_released l = 0 := by
  unfold n_released
  rw [List.countP_eq_zero]
  intro x hx
  simp [isRelease_of_inLoop x (h x hx)]

theorem run_live_of_inLoop (l rest : List Event) (h : ∀ x ∈ l, x.inLoop = true) :
    SamplerState.run .live (l ++ rest) = SamplerState.run .live rest := by
  induction l with
  | nil => rfl
  | cons x xs ih =>
    have hx := step_live_of_inLoop x (h x (List.mem_cons_self _ _))
    have hxs := ih (fun y hy => h y (List.mem_cons_of_mem _ hy))
    simp only [List.cons_append, SamplerState.run, hx]
    exact hxs

theorem run_live_adds (l : List Stage) (rest : List Event) :
    SamplerState.run .live (l.map Event.sampler_chain_add ++ rest) =
      SamplerState.run .live rest := by
  induction l with
  | nil => rfl
  | cons x xs ih => simpa [SamplerState.run, SamplerState.step] using ih

theorem store_not_mem_of_inLoop (l : List Event) (h : ∀ x ∈ l, x.inLoop = true) :
    Event.store_out_text ∉ l := fun hm => by
  have := h _ hm
  cases this

theorem added_stages_adds (l : List Stage) :
    added_stages (l.map Event.sampler_chain_add) = l := by
  induction l with
  | nil => rfl
  | cons x xs ih =>
    simp only [added_stages, List.map_cons, List.filterMap_cons, Event.stage?] at ih ⊢
    rw [ih]

theorem n_created_adds (l : List Stage) : n_created (l.map Event.sampler_chain_add) = 0 := by
  induction l with
  | nil => rfl
  | cons x xs ih => simp [n_created, List.countP_cons, Event.isCreate]

theorem n_released_adds (l : List Stage) : n_released (l.map Event.sampler_chain_add) = 0 := by
  induction l with
  | nil => rfl
  | cons x xs ih => simp [n_released, List.countP_cons, Event.isRelease]

theorem n_created_append (l₁ l₂ : List Event) :
    n_created (l₁ ++ l₂) = n_created l₁ + n_created l₂ := by
  simp [n_created, List.countP_append]

theorem n_released_append (l₁ l₂ : List Event) :
    n_released (l₁ ++ l₂) = n_released l₁ + n_released l₂ := by
  simp [n_released, List.countP_append]

theorem sampler_chain_eq_spec (temp : F32) (top_k : Int) (top_p : F32) (time_us : Int) :
    sampler_chain temp top_k top_p time_us = pipeline_spec temp top_k top_p time_us := by
  unfold sampler_chain pipeline_spec
  by_cases h1 : top_k > 0 <;> by_cases h2 : top_p.lt F32.one = true <;>
    by_cases h3 : temp.gt F32.zero = true <;> by_cases h4 : temp.ne F32.one = true <;>
    by_cases h5 : temp.le F32.zero = true <;> simp [h1, h2, h3, h4, h5]

/-! ### Where the loop stops -/

theorem n_appended_of_fail (e : GenEngine) (r i k : Nat) (hk1 : 1 ≤ k) (hkr : k ≤ r)
    (heog : ∀ j < k, e.vocab_is_eog (i + j) (e.sampler_sample (i + j)) = false)
    (hok : ∀ j, j + 1 < k → e.decode_step (i + j) (e.sampler_sample (i + j)) = 0)
    (hfail : e.decode_step (i + (k - 1)) (e.sampler_sample (i + (k - 1))) ≠ 0) :
    n_appended e r i = k ∧ n_sampled e r i = k := by
  induction r generalizing i k with
  | zero => omega
  | succ r ih =>
    have h0 : e.vocab_is_eog i (e.sampler_sample i) = false := by
      simpa using heog 0 (by omega)
    by_cases hk : k = 1
    · subst hk
      have hd : e.decode_step i (e.sampler_sample i) ≠ 0 := by simpa using hfail
      simp [n_appended, n_sampled, h0, hd]
    · have hd : e.decode_step i (e.sampler_sample i) = 0 := by
        simpa using hok 0 (by omega)
      have := ih (i + 1) (k - 1) (by omega) (by omega)
        (fun j hj => by
          have := heog (j + 1) (by omega)
          rwa [show i + (j + 1) = i + 1 + j by omega] at this)
        (fun j hj => by
          have := hok (j + 1) (by omega)
          rwa [show i + (j + 1) = i + 1 + j by omega] at this)
        (by rwa [show i + 1 + (k - 1 - 1) = i + (k - 1) by omega])
      simp only [n_appended, n_sampled, h0, hd]
      simp only [Bool.false_eq_true, if_false, ne_eq, not_true_eq_false]
      omega

theorem n_appended_gt (e : GenEngine) (r i k : Nat) (hkr : k < r)
    (heog : ∀ j ≤ k, e.vocab_is_eog (i + j) (e.sampler_sample (i + j)) = false)
    (hok : ∀ j < k, e.decode_step (i + j) (e.sampler_sample (i + j)) = 0) :
    k < n_appended e r i := by
  induction r generalizing i k with
  | zero => omega
  | succ r ih =>
    have h0 : e.vocab_is_eog i (e.sampler_sample i) = false := by
      simpa using heog 0 (by omega)
    simp only [n_appended, h0]
    simp only [Bool.false_eq_true, if_false]
    split_ifs with hd
    · cases k with
      | zero => omega
      | succ k => exact absurd (by simpa using hok 0 (by omega)) hd
    · cases k with
      | zero => omega
      | succ k =>
        have := ih (i + 1) k (by omega)
          (fun j hj => by
            have := heog (j + 1) (by omega)
            rwa [show i + (j + 1) = i + 1 + j by omega] at this)
          (fun j hj => by
            have := hok (j + 1) (by omega)
            rwa [show i + (j + 1) = i + 1 + j by omega] at this)
        omega

theorem decode_token_mem (e : GenEngine) (ctx : Handle) (r i k : Nat) (out : List Byte)
    (hkr : k < r)
    (heog : ∀ j ≤ k, e.vocab_is_eog (i + j) (e.sampler_sample (i + j)) = false)
    (hok : ∀ j < k, e.decode_step (i + j) (e.sampler_sample (i + j)) = 0) :
    Event.decode_token ctx (e.sampler_sample (i + k)) ∈ (gen_loop e ctx r i out).2 := by
  induction r generalizing i k out with
  | zero => omega
  | succ r ih =>
    have h0 : e.vocab_is_eog i (e.sampler_sample i) = false := by
      simpa using heog 0 (by omega)
    by_cases hd : e.decode_step i (e.sampler_sample i) = 0
    · rw [gen_loop_next e ctx r i out h0 hd]
      cases k with
      | zero => simp
      | succ k =>
        have := ih (i + 1) k (out ++ fragment e i) (by omega)
          (fun j hj => by
            have := heog (j + 1) (by omega)
            rwa [show i + (j + 1) = i + 1 + j by omega] at this)
          (fun j hj => by
            have := hok (j + 1) (by omega)
            rwa [show i + (j + 1) = i + 1 + j by omega] at this)
        rw [show i + 1 + k = i + (k + 1) by omega] at this
        exact List.mem_append_right _ this
    · rw [gen_loop_fail e ctx r i out h0 hd]
      cases k with
      | zero => simp
      | succ k => exact absurd (by simpa using hok 0 (by omega)) hd

/-! ### The path of `kb_llm_generate` that reaches the store -/

theorem size_not_positive_of_overflow (x : Int) (h : x = INT32_MIN) (hpos : 0 < wrap32 (-x)) :
    False := by
  subst h
  revert hpos
  decide


theorem generate_success (e : GenEngine) (prompt : List Byte) (max_tokens : Int) (temp : F32)
    (top_k : Int) (top_p : F32) (out_text : Option (List Byte)) (g_model g_ctx : Handle)
    (hvocab : e.model_get_vocab g_model = true)
    (hsize : 0 < wrap32 (-(e.tokenize_size prompt (wrap32 prompt.length))))
    (hfill : 0 ≤ e.tokenize_fill prompt (wrap32 prompt.length)
      (wrap32 (-(e.tokenize_size prompt (wrap32 prompt.length)))))
    (hdec : e.decode_prompt (wrap32 (-(e.tokenize_size prompt (wrap32 prompt.length)))) = 0)
    (hmalloc :
      e.malloc ((fragments_from e 0 (n_appended e max_tokens.toNat 0)).length + 1) = true) :
    (kb_llm_generate e prompt max_tokens temp top_k top_p out_text
        ⟨some g_model, some g_ctx⟩).ret = some 1 ∧
    (kb_llm_generate e prompt max_tokens temp top_k top_p out_text
        ⟨some g_model, some g_ctx⟩).out_text =
      some (fragments_from e 0 (n_appended e max_tokens.toNat 0) ++ [0]) ∧
    (kb_llm_generate e prompt max_tokens temp top_k top_p out_text
        ⟨some g_model, some g_ctx⟩).events.countP Event.isSample =
      n_sampled e max_tokens.toNat 0 ∧
    (∀ x ∈ (gen_loop e g_ctx max_tokens.toNat 0 []).2,
      x ∈ (kb_llm_generate e prompt max_tokens temp top_k top_p out_text
        ⟨some g_model, some g_ctx⟩).events) := by
  have hout := gen_loop_out e g_ctx max_tokens.toNat 0 []
  have hcnt := gen_loop_count_samples e g_ctx max_tokens.toNat 0 []
  simp only [List.nil_append] at hout
  have hm2 : e.malloc ((gen_loop e g_ctx max_tokens.toNat 0 []).1.length + 1) = true := by
    rw [hout]; exact hmalloc
  have hadds : ∀ l : List Stage,
      List.countP Event.isSample (l.map Event.sampler_chain_add) = 0 := by
    intro l
    rw [List.countP_eq_zero]
    intro x hx
    rcases List.mem_map.1 hx with ⟨st, _, rfl⟩
    simp [Event.isSample]
  have hdef : e.tokenize_size prompt (wrap32 prompt.length) ≠ INT32_MIN :=
    fun h => size_not_positive_of_overflow _ h hsize
  unfold kb_llm_generate
  simp only [hvocab, Bool.not_true, Bool.false_eq_true, if_false, not_le.2 hsize, not_lt.2 hfill,
    hdec, ne_eq, not_true_eq_false, hm2, hdef]
  refine ⟨trivial, ?_, ?_, ?_⟩
  · simp [hout]
  · simp [List.countP_append, List.countP_cons, Event.isSample, hadds, hcnt]
  · intro x hx
    simp [hx]

theorem generate_of_ret_one (e : GenEngine) (prompt : List Byte) (max_tokens : Int) (temp : F32)
    (top_k : Int) (top_p : F32) (out_text : Option (List Byte)) (s : Session)
    (h : (kb_llm_generate e prompt max_tokens temp top_k top_p out_text s).ret = some 1) :
    ∃ g_model g_ctx, s = ⟨some g_model, some g_ctx⟩ ∧
      e.model_get_vocab g_model = true ∧
      0 < wrap32 (-(e.tokenize_size prompt (wrap32 prompt.length))) ∧
      0 ≤ e.tokenize_fill prompt (wrap32 prompt.length)
        (wrap32 (-(e.tokenize_size prompt (wrap32 prompt.length)))) ∧
      e.decode_prompt (wrap32 (-(e.tokenize_size prompt (wrap32 prompt.length)))) = 0 ∧
      e.malloc ((fragments_from e 0 (n_appended e max_tokens.toNat 0)).length + 1) = true := by
  revert h
  unfold kb_llm_generate
  split
  · rename_i g_ctx g_model hc hm
    dsimp only
    have hout := gen_loop_out e g_ctx max_tokens.toNat 0 []
    simp only [List.nil_append] at hout
    split_ifs with h1 h0 h2 h3 h4 h5
    · simp
    · simp
    · simp
    · simp
    · simp
    · simp
    · intro _
      refine ⟨g_model, g_ctx, ?_, ?_, ?_, ?_, ?_, ?_⟩
      · rcases s with ⟨m, c⟩
        simp only at hc hm
        rw [hc, hm]
      · simpa using h1
      · omega
      · omega
      · simpa using h4
      · rw [← hout]; simpa using h5
  · simp

/-! ### Calls with a defined return value -/

/-- When the size query of the tokenizer does not answer `INT32_MIN`, the call
returns 0 or 1, and 0 exactly when the session is not ready, or the vocabulary
pointer is null, or the prompt token count is not positive, or the fill pass
returns a negative value, or the decode of the prompt batch returns non-zero,
or `malloc` returns null; the store into `*out_text` happens exactly when the
call returns 1. -/
theorem generate_return_contract_of_defined (e : GenEngine) (prompt : List Byte)
    (max_tokens : Int) (temp : F32) (top_k : Int) (top_p : F32)
    (out_text : Option (List Byte)) (s : Session)
    (hdef : e.tokenize_size prompt (wrap32 prompt.length) ≠ INT32_MIN) :
    ((kb_llm_generate e prompt max_tokens temp top_k top_p out_text s).ret = some 0 ∨
      (kb_llm_generate e prompt max_tokens temp top_k top_p out_text s).ret = some 1) ∧
    ((kb_llm_generate e prompt max_tokens temp top_k top_p out_text s).ret = some 0 ↔
      (s.ready = false ∨
       (∃ m, s.g_model = some m ∧ e.model_get_vocab m = false) ∨
       wrap32 (-(e.tokenize_size prompt (wrap32 prompt.length))) ≤ 0 ∨
       e.tokenize_fill prompt (wrap32 prompt.length)
         (wrap32 (-(e.tokenize_size prompt (wrap32 prompt.length)))) < 0 ∨
       e.decode_prompt (wrap32 (-(e.tokenize_size prompt (wrap32 prompt.length)))) ≠ 0 ∨
       e.malloc ((fragments_from e 0 (n_appended e max_tokens.toNat 0)).length + 1) = false)) ∧
    (Event.store_out_text ∈
        (kb_llm_generate e prompt max_tokens temp top_k top_p out_text s).events ↔
      (kb_llm_generate e prompt max_tokens temp top_k top_p out_text s).ret = some 1) ∧
    ((kb_llm_generate e prompt max_tokens temp top_k top_p out_text s).ret = some 0 ∧
        (kb_llm_generate e prompt max_tokens temp top_k top_p out_text s).out_text = out_text ∨
      (kb_llm_generate e prompt max_tokens temp top_k top_p out_text s).ret = some 1 ∧
        (kb_llm_generate e prompt max_tokens temp top_k top_p out_text s).out_text =
          some (fragments_from e 0 (n_appended e max_tokens.toNat 0) ++ [0])) := by
  unfold kb_llm_generate
  split
  · rename_i g_ctx g_model hc hm
    have hready : s.ready = true := by simp [Session.ready, hc, hm]
    dsimp only
    have hloop := store_not_mem_of_inLoop _ (gen_loop_inLoop e g_ctx max_tokens.toNat 0 [])
    split_ifs with h1 h2 h3 h4 h5
    · simp at h1
      simp [hready, hm, h1]
    · simp at h1
      simp [hready, hm, h1, h2]
    · simp at h1
      simp [hready, hm, h1, h2, h3]
    · simp at h1
      simp [hready, hm, h1, h2, h3, h4]
    · simp at h1 h5
      rw [gen_loop_out] at h5
      simp only [List.nil_append] at h5
      simp [hready, hm, h1, h2, h3, h4, h5, hloop]
    · simp at h1 h5
      rw [gen_loop_out] at h5 ⊢
      simp only [List.nil_append] at h5 ⊢
      simp [hready, hm, h1, h2, h3, h4, h5]
  · rename_i hnot
    have hready : s.ready = false := by
      rcases s with ⟨_ | m, _ | c⟩
      · rfl
      · rfl
      · rfl
      · exact absurd rfl (hnot c m rfl)
    simp [hready]

/-- A call either has no return value, which happens only when the size query
of the tokenizer answers `INT32_MIN` and then with the sampler chain created
and not released, or it returns with the chain never created, or it returns
with the chain created once and released once, every event respecting the
chain protocol. -/
theorem sampler_released_of_return (e : GenEngine) (prompt : List Byte) (max_tokens : Int)
    (temp : F32) (top_k : Int) (top_p : F32) (out_text : Option (List Byte)) (s : Session) :
    ((kb_llm_generate e prompt max_tokens temp top_k top_p out_text s).ret = none ∧
      e.tokenize_size prompt (wrap32 prompt.length) = INT32_MIN ∧
      n_created (kb_llm_generate e prompt max_tokens temp top_k top_p out_text s).events = 1 ∧
      n_released (kb_llm_generate e prompt max_tokens temp top_k top_p out_text s).events = 0 ∧
      SamplerState.run .absent
        (kb_llm_generate e prompt max_tokens temp top_k top_p out_text s).events =
          some .live) ∨
    ((kb_llm_generate e prompt max_tokens temp top_k top_p out_text s).ret ≠ none ∧
      n_created (kb_llm_generate e prompt max_tokens temp top_k top_p out_text s).events = 0 ∧
      n_released (kb_llm_generate e prompt max_tokens temp top_k top_p out_text s).events = 0 ∧
      SamplerState.run .absent
        (kb_llm_generate e prompt max_tokens temp top_k top_p out_text s).events =
          some .absent ∧
      Event.store_out_text ∉
        (kb_llm_generate e prompt max_tokens temp top_k top_p out_text s).events) ∨
    ((kb_llm_generate e prompt max_tokens temp top_k top_p out_text s).ret ≠ none ∧
      n_created (kb_llm_generate e prompt max_tokens temp top_k top_p out_text s).events = 1 ∧
      n_released (kb_llm_generate e prompt max_tokens temp top_k top_p out_text s).events = 1 ∧
      SamplerState.run .absent
        (kb_llm_generate e prompt max_tokens temp top_k top_p out_text s).events =
          some .released) := by
  unfold kb_llm_generate
  split
  · rename_i g_ctx g_model hc hm
    dsimp only
    have hin := gen_loop_inLoop e g_ctx max_tokens.toNat 0 []
    have hc0 := n_created_of_inLoop _ hin
    have hr0 := n_released_of_inLoop _ hin
    have hca := n_created_adds (sampler_chain temp top_k top_p e.time_us)
    have hra := n_released_adds (sampler_chain temp top_k top_p e.time_us)
    have hcc : ∀ (x : Event) (l : List Event), n_created (x :: l) =
        n_created l + (if x.isCreate then 1 else 0) := by
      intro x l
      simp only [n_created, List.countP_cons]
    have hrc : ∀ (x : Event) (l : List Event), n_released (x :: l) =
        n_released l + (if x.isRelease then 1 else 0) := by
      intro x l
      simp only [n_released, List.countP_cons]
    have hnil : n_created [] = 0 ∧ n_released [] = 0 := ⟨rfl, rfl⟩
    have hlp := fun rest => run_live_of_inLoop _ rest hin
    have hadds := run_live_adds (sampler_chain temp top_k top_p e.time_us)
    generalize (gen_loop e g_ctx max_tokens.toNat 0 []).2 = lp at hin hc0 hr0 hlp
    generalize List.map Event.sampler_chain_add (sampler_chain temp top_k top_p e.time_us) =
      adds at hca hra hadds
    split_ifs with h1 h0 h2 h3 h4 h5
    · right; left
      simp [n_created, n_released, SamplerState.run, SamplerState.step, Event.isCreate,
        Event.isRelease, List.countP_cons]
    · left
      refine ⟨rfl, h0, ?_, ?_, ?_⟩
      · simp [n_created_append, hca, hcc, hnil, Event.isCreate]
      · simp [n_released_append, hra, hrc, hnil, Event.isRelease]
      · simp [SamplerState.run, SamplerState.step, hadds]
    · right; right
      refine ⟨by simp, ?_, ?_, ?_⟩
      · simp [n_created_append, hca, hcc, hnil, Event.isCreate]
      · simp [n_released_append, hra, hrc, hnil, Event.isRelease]
      · simp [SamplerState.run, SamplerState.step, hadds]
    · right; right
      refine ⟨by simp, ?_, ?_, ?_⟩
      · simp [n_created_append, hca, hcc, hnil, Event.isCreate]
      · simp [n_released_append, hra, hrc, hnil, Event.isRelease]
      · simp [SamplerState.run, SamplerState.step, hadds]
    · right; right
      refine ⟨by simp, ?_, ?_, ?_⟩
      · simp [n_created_append, hca, hcc, hnil, Event.isCreate]
      · simp [n_released_append, hra, hrc, hnil, Event.isRelease]
      · simp [SamplerState.run, SamplerState.step, hadds]
    · right; right
      refine ⟨by simp, ?_, ?_, ?_⟩
      · simp [n_created_append, hca, hcc, hnil, hc0, Event.isCreate]
      · simp [n_released_append, hra, hrc, hnil, hr0, Event.isRelease]
      · simp [SamplerState.run, SamplerState.step, hadds, hlp]
    · right; right
      refine ⟨by simp, ?_, ?_, ?_⟩
      · simp [n_created_append, hca, hcc, hnil, hc0, Event.isCreate]
      · simp [n_released_append, hra, hrc, hnil, hr0, Event.isRelease]
      · simp [SamplerState.run, SamplerState.step, hadds, hlp]
  · right; left
    simp [n_created, n_released, SamplerState.run, SamplerState.step, Event.isCreate,
      Event.isRelease, List.countP_cons]

/-! ## Claims about the session lifecycle -/

/-- C7 (evaluation of the code): a `kb_llm_init` call on the unloaded session
whose model load succeeds and whose context creation fails returns 0 and
leaves `g_model` set while `g_ctx` is null, a reachable state that is neither
Ready nor Unloaded; the next `kb_llm_init` call loads a model again and
replaces the retained handle without a `llama_model_free` call for it. -/
theorem init_context_failure_keeps_model :
    (kb_llm_init engine_no_context (some [109]) 2048 4 Session.unloaded).ret = 0 ∧
    (kb_llm_init engine_no_context (some [109]) 2048 4 Session.unloaded).session =
      ⟨some 1, none⟩ ∧
    reached [Call.init engine_no_context (some [109]) 2048 4] = ⟨some 1, none⟩ ∧
    (kb_llm_init engine_second_try (some [109]) 2048 4 ⟨some 1, none⟩).session =
      ⟨some 9, some 3⟩ ∧
    Event.model_free 1 ∉
      (kb_llm_init engine_second_try (some [109]) 2048 4 ⟨some 1, none⟩).events := by
  decide

/-- C8: after a `kb_llm_init` call that returned 1, a second `kb_llm_init` call
with any arguments and any engine returns 1, leaves both handles as the first
call set them and makes no call to the engine at all. -/
theorem init_twice_is_idempotent (e e' : InitEngine) (model_path model_path' : Option (List Byte))
    (n_ctx n_threads n_ctx' n_threads' : Int) (s : Session)
    (h : (kb_llm_init e model_path n_ctx n_threads s).ret = 1) :
    (kb_llm_init e' model_path' n_ctx' n_threads'
        (kb_llm_init e model_path n_ctx n_threads s).session).ret = 1 ∧
    (kb_llm_init e' model_path' n_ctx' n_threads'
        (kb_llm_init e model_path n_ctx n_threads s).session).session =
      (kb_llm_init e model_path n_ctx n_threads s).session ∧
    (kb_llm_init e' model_path' n_ctx' n_threads'
        (kb_llm_init e model_path n_ctx n_threads s).session).events = [] := by
  have hctx : (kb_llm_init e model_path n_ctx n_threads s).session.g_ctx.isSome = true := by
    revert h
    unfold kb_llm_init
    split_ifs with h1
    · intro _; exact h1
    · dsimp only
      split
      · simp
      · split <;> simp
  generalize (kb_llm_init e model_path n_ctx n_threads s).session = s1 at hctx
  simp [kb_llm_init, hctx]

theorem init_twice_is_idempotent_witness :
    (kb_llm_init ⟨fun _ => some 1, fun _ _ _ => some 2⟩ (some [109]) 2048 4
        Session.unloaded).ret = 1 ∧
    (kb_llm_init ⟨fun _ => some 7, fun _ _ _ => none⟩ none 16 1
        (kb_llm_init ⟨fun _ => some 1, fun _ _ _ => some 2⟩ (some [109]) 2048 4
          Session.unloaded).session).session = ⟨some 1, some 2⟩ :=
  ⟨by decide,
   (by decide : (kb_llm_init ⟨fun _ => some 1, fun _ _ _ => some 2⟩ (some [109]) 2048 4
        Session.unloaded).session = ⟨some 1, some 2⟩) ▸
    (init_twice_is_idempotent ⟨fun _ => some 1, fun _ _ _ => some 2⟩
      ⟨fun _ => some 7, fun _ _ _ => none⟩ (some [109]) none 2048 4 16 1 Session.unloaded
      (by decide)).2.1⟩

/-- C9: from every session, `kb_llm_unload` returns 1 and leaves both handles
null; it frees the context only if one was present, then the model only if one
was present, then the backend. On the unloaded session it changes nothing, a
second unload gives the same result and session as the first, and a
`kb_llm_generate` call made right after an unload returns 0 and leaves the
output slot alone. -/
theorem unload_contract (s : Session) :
    (kb_llm_unload s).ret = 1 ∧
    (kb_llm_unload s).session = Session.unloaded ∧
    (kb_llm_unload s).events =
      s.g_ctx.toList.map Event.free_ctx ++ s.g_model.toList.map Event.model_free ++
        [Event.backend_free] ∧
    (kb_llm_unload Session.unloaded).session = Session.unloaded ∧
    (kb_llm_unload (kb_llm_unload s).session).ret = (kb_llm_unload s).ret ∧
    (kb_llm_unload (kb_llm_unload s).session).session = (kb_llm_unload s).session ∧
    ∀ (e : GenEngine) (prompt : List Byte) (max_tokens : Int) (temp : F32) (top_k : Int)
      (top_p : F32) (out_text : Option (List Byte)),
      (kb_llm_generate e prompt max_tokens temp top_k top_p out_text
        (kb_llm_unload s).session).ret = some 0 ∧
      (kb_llm_generate e prompt max_tokens temp top_k top_p out_text
        (kb_llm_unload s).session).out_text = out_text := by
  refine ⟨rfl, rfl, ?_, rfl, rfl, rfl, ?_⟩
  · rcases s with ⟨_ | m, _ | c⟩ <;> rfl
  · intro e prompt max_tokens temp top_k top_p out_text
    exact ⟨rfl, rfl⟩

/-- C10: in every session reached from the unloaded one by `kb_llm_init`,
`kb_llm_generate` and `kb_llm_unload` calls with arbitrary engine answers, a
present context implies a present model; there `kb_llm_init` returns 1 exactly
when the session it leaves is ready, and `kb_llm_generate` leaves both handles
as they were. -/
theorem context_implies_model (calls : List Call) :
    ((reached calls).g_ctx.isSome → (reached calls).g_model.isSome) ∧
    (∀ (e : InitEngine) (model_path : Option (List Byte)) (n_ctx n_threads : Int),
      (kb_llm_init e model_path n_ctx n_threads (reached calls)).ret = 1 ↔
        (kb_llm_init e model_path n_ctx n_threads (reached calls)).session.ready = true) ∧
    (∀ (e : GenEngine) (prompt : List Byte) (max_tokens : Int) (temp : F32) (top_k : Int)
      (top_p : F32) (out_text : Option (List Byte)),
      (kb_llm_generate e prompt max_tokens temp top_k top_p out_text (reached calls)).session =
        reached calls) := by
  refine ⟨reached_ctx_model calls, ?_, ?_⟩
  · intro e model_path n_ctx n_threads
    have hinv := reached_ctx_model calls
    generalize reached calls = s at hinv
    unfold kb_llm_init
    split_ifs with h1
    · simp [Session.ready, h1, hinv h1]
    · dsimp only
      split
      · simp [Session.ready]
      · split <;> simp [Session.ready]
  · intro e prompt max_tokens temp top_k top_p out_text
    exact kb_llm_generate_session e prompt max_tokens temp top_k top_p out_text _

/-! ## Claims about `kb_llm_generate` -/

/-- C2: the stages `kb_llm_generate` adds to its sampler chain are, whenever it
builds one, exactly the pipeline of the specification, in its order: top-k iff
`top_k > 0`, then top-p with minimum-keep 1 iff `top_p < 1.0`, then temperature
iff `temp > 0` and `temp != 1.0`, then greedy if `temp <= 0` and the
timestamp-seeded distribution sampler otherwise. That pipeline has between 1
and 4 stages, ends with a selector, has no selector before it, and for
`temp <= 0` is the same for every timestamp. -/
theorem sampler_pipeline_exact (e : GenEngine) (prompt : List Byte) (max_tokens : Int)
    (temp : F32) (top_k : Int) (top_p : F32) (out_text : Option (List Byte)) (s : Session) :
    added_stages (kb_llm_generate e prompt max_tokens temp top_k top_p out_text s).events =
      (if builds_sampler e s then pipeline_spec temp top_k top_p e.time_us else []) ∧
    1 ≤ (pipeline_spec temp top_k top_p e.time_us).length ∧
    (pipeline_spec temp top_k top_p e.time_us).length ≤ 4 ∧
    (∃ filters selector, pipeline_spec temp top_k top_p e.time_us = filters ++ [selector] ∧
      selector.isSelector = true ∧ filters.all (fun st => !st.isSelector) = true) ∧
    (temp.le F32.zero = true ∧
        (∀ t : Int,
          pipeline_spec temp top_k top_p t = pipeline_spec temp top_k top_p e.time_us) ∨
      temp.le F32.zero = false) := by
  refine ⟨?_, ?_, ?_, ?_, ?_⟩
  · unfold kb_llm_generate
    split
    · rename_i g_ctx g_model hc hm
      dsimp only
      have hloop := added_stages_of_inLoop _ (gen_loop_inLoop e g_ctx max_tokens.toNat 0 [])
      rw [sampler_chain_eq_spec]
      have hadds := added_stages_adds (pipeline_spec temp top_k top_p e.time_us)
      have hb : builds_sampler e s = e.model_get_vocab g_model := by
        simp [builds_sampler, hc, hm]
      rw [hb]
      simp only [added_stages] at hloop hadds ⊢
      generalize (gen_loop e g_ctx max_tokens.toNat 0 []).2 = lp at hloop
      generalize List.map Event.sampler_chain_add (pipeline_spec temp top_k top_p e.time_us) =
        adds at hadds
      cases hv : e.model_get_vocab g_model
      · simp [Event.stage?]
      · simp only [Bool.not_true, Bool.false_eq_true, if_false, if_true]
        split_ifs <;>
          simp [List.filterMap_append, List.filterMap_cons, Event.stage?, hloop, hadds]
    · rename_i hnot
      have hb : builds_sampler e s = false := by
        rcases s with ⟨_ | m, _ | c⟩
        · rfl
        · rfl
        · rfl
        · exact absurd rfl (hnot c m rfl)
      simp [hb, added_stages, Event.stage?]
  · simp only [pipeline_spec, List.length_append, List.length_singleton]
    omega
  · unfold pipeline_spec
    split_ifs <;> simp
  · refine ⟨_, _, rfl, ?_, ?_⟩
    · split_ifs <;> rfl
    · split_ifs <;> simp [Stage.isSelector]
  · by_cases h : temp.le F32.zero = true
    · left
      refine ⟨h, fun t => ?_⟩
      simp [pipeline_spec, h]
    · right
      simpa using h

/-- C3 (as stated, refuted): with `engine_decode_and_malloc_fail` the call gets
past prompt evaluation, the decode that feeds back the first sampled token
fails, and yet the call returns 0 and hands no text to the caller, because
`malloc` returns null after the loop. -/
theorem decode_failure_then_malloc_failure :
    engine_decode_and_malloc_fail.model_get_vocab 1 = true ∧
    engine_decode_and_malloc_fail.decode_prompt 1 = 0 ∧
    engine_decode_and_malloc_fail.vocab_is_eog 0
      (engine_decode_and_malloc_fail.sampler_sample 0) = false ∧
    engine_decode_and_malloc_fail.decode_step 0
      (engine_decode_and_malloc_fail.sampler_sample 0) ≠ 0 ∧
    (kb_llm_generate engine_decode_and_malloc_fail [72, 105] 4 (.fin 0) 0 (.fin 1) none
      ⟨some 1, some 2⟩).ret = some 0 ∧
    (kb_llm_generate engine_decode_and_malloc_fail [72, 105] 4 (.fin 0) 0 (.fin 1) none
      ⟨some 1, some 2⟩).out_text = none ∧
    (kb_llm_generate engine_decode_and_malloc_fail [72, 105] 4 (.fin 0) 0 (.fin 1) none
      ⟨some 1, some 2⟩).events.countP Event.isSample = 1 := by
  decide

/-- C3 (amended): in a call that gets past prompt evaluation, if the decode
that feeds back the `k`-th sampled token (`1 <= k <= max_tokens`) is the first
one to fail, then exactly `k` tokens are sampled and, provided `malloc` does
not return null, the call returns 1 and the text stored in `*out_text` is the
concatenation, in sampling order, of the fragments of the first `k` sampled
tokens, the `k`-th included. -/
theorem partial_text_on_decode_failure (e : GenEngine) (prompt : List Byte) (max_tokens : Int)
    (temp : F32) (top_k : Int) (top_p : F32) (out_text : Option (List Byte))
    (g_model g_ctx : Handle) (k : Nat)
    (hvocab : e.model_get_vocab g_model = true)
    (hsize : 0 < wrap32 (-(e.tokenize_size prompt (wrap32 prompt.length))))
    (hfill : 0 ≤ e.tokenize_fill prompt (wrap32 prompt.length)
      (wrap32 (-(e.tokenize_size prompt (wrap32 prompt.length)))))
    (hdec : e.decode_prompt (wrap32 (-(e.tokenize_size prompt (wrap32 prompt.length)))) = 0)
    (hk1 : 1 ≤ k) (hk2 : (k : Int) ≤ max_tokens)
    (heog : ∀ j < k, e.vocab_is_eog j (e.sampler_sample j) = false)
    (hok : ∀ j, j + 1 < k → e.decode_step j (e.sampler_sample j) = 0)
    (hfail : e.decode_step (k - 1) (e.sampler_sample (k - 1)) ≠ 0)
    (hmalloc : e.malloc ((fragments_from e 0 k).length + 1) = true) :
    (kb_llm_generate e prompt max_tokens temp top_k top_p out_text
        ⟨some g_model, some g_ctx⟩).ret = some 1 ∧
    (kb_llm_generate e prompt max_tokens temp top_k top_p out_text
        ⟨some g_model, some g_ctx⟩).out_text = some (fragments_from e 0 k ++ [0]) ∧
    (kb_llm_generate e prompt max_tokens temp top_k top_p out_text
        ⟨some g_model, some g_ctx⟩).events.countP Event.isSample = k := by
  have hstop := n_appended_of_fail e max_tokens.toNat 0 k hk1 (by omega)
    (fun j hj => by simpa using heog j hj) (fun j hj => by simpa using hok j hj)
    (by simpa using hfail)
  have := generate_success e prompt max_tokens temp top_k top_p out_text g_model g_ctx hvocab
    hsize hfill hdec (by rw [hstop.1]; exact hmalloc)
  rw [hstop.1, hstop.2] at this
  exact ⟨this.1, this.2.1, this.2.2.1⟩

theorem partial_text_on_decode_failure_witness :
    (kb_llm_generate engine_small [72, 105] 5 (.fin 0) 0 (.fin 1) none
        ⟨some 1, some 2⟩).ret = some 1 ∧
    (kb_llm_generate engine_small [72, 105] 5 (.fin 0) 0 (.fin 1) none
        ⟨some 1, some 2⟩).out_text = some (fragments_from engine_small 0 2 ++ [0]) ∧
    (kb_llm_generate engine_small [72, 105] 5 (.fin 0) 0 (.fin 1) none
        ⟨some 1, some 2⟩).events.countP Event.isSample = 2 :=
  partial_text_on_decode_failure engine_small [72, 105] 5 (.fin 0) 0 (.fin 1) none 1 2 2
    (by decide) (by decide) (by decide) (by decide) (by decide) (by decide) (by decide)
    (fun j hj => by
      have hj0 : j = 0 := by omega
      subst hj0
      decide)
    (by decide) (by decide)

/-- C4 (as stated, refuted): with `engine_long_piece` the sampled token is not
an end-of-generation token and its text has 130 bytes, more than the 128-byte
buffer; `llama_token_to_piece` reports it by the negative value -130, the
wrapper appends nothing, and the returned text is empty instead of the first
128 bytes of the token text. -/
theorem oversized_fragment_is_dropped :
    BUF_SIZE < (List.replicate 130 97).length ∧
    engine_long_piece.vocab_is_eog 0 (engine_long_piece.sampler_sample 0) = false ∧
    (engine_long_piece.token_to_piece 0 (engine_long_piece.sampler_sample 0) BUF_SIZE).n =
      -130 ∧
    (kb_llm_generate engine_long_piece [72, 105] 1 (.fin 0) 0 (.fin 1) none
      ⟨some 1, some 2⟩).ret = some 1 ∧
    (kb_llm_generate engine_long_piece [72, 105] 1 (.fin 0) 0 (.fin 1) none
      ⟨some 1, some 2⟩).out_text = some [0] ∧
    (kb_llm_generate engine_long_piece [72, 105] 1 (.fin 0) 0 (.fin 1) none
      ⟨some 1, some 2⟩).out_text ≠
        some (List.take BUF_SIZE (List.replicate 130 97) ++ [0]) := by
  set_option maxRecDepth 100000 in decide

/-- C4 (amended): in a call that gets past prompt evaluation, for every
iteration `k` that samples a token which is not an end-of-generation token, the
wrapper appends to the text accumulated so far exactly the first `n` bytes of
the 128-byte buffer when `llama_token_to_piece` returns `n > 0` and nothing
when it returns `n <= 0`; in both cases the token is fed back to the engine
and, provided `malloc` does not return null, the call returns 1. -/
theorem fragment_appended_as_reported (e : GenEngine) (prompt : List Byte) (max_tokens : Int)
    (temp : F32) (top_k : Int) (top_p : F32) (out_text : Option (List Byte))
    (g_model g_ctx : Handle) (k : Nat)
    (hvocab : e.model_get_vocab g_model = true)
    (hsize : 0 < wrap32 (-(e.tokenize_size prompt (wrap32 prompt.length))))
    (hfill : 0 ≤ e.tokenize_fill prompt (wrap32 prompt.length)
      (wrap32 (-(e.tokenize_size prompt (wrap32 prompt.length)))))
    (hdec : e.decode_prompt (wrap32 (-(e.tokenize_size prompt (wrap32 prompt.length)))) = 0)
    (hk : (k : Int) < max_tokens)
    (heog : ∀ j ≤ k, e.vocab_is_eog j (e.sampler_sample j) = false)
    (hok : ∀ j < k, e.decode_step j (e.sampler_sample j) = 0)
    (hmalloc :
      e.malloc ((fragments_from e 0 (n_appended e max_tokens.toNat 0)).length + 1) = true) :
    (kb_llm_generate e prompt max_tokens temp top_k top_p out_text
        ⟨some g_model, some g_ctx⟩).ret = some 1 ∧
    (∃ n, (kb_llm_generate e prompt max_tokens temp top_k top_p out_text
        ⟨some g_model, some g_ctx⟩).out_text =
      some (fragments_from e 0 k ++
        (if (e.token_to_piece k (e.sampler_sample k) BUF_SIZE).n > 0 then
          (List.range (e.token_to_piece k (e.sampler_sample k) BUF_SIZE).n.toNat).map
            (e.token_to_piece k (e.sampler_sample k) BUF_SIZE).buf
         else []) ++
        fragments_from e (k + 1) n ++ [0])) ∧
    Event.decode_token g_ctx (e.sampler_sample k) ∈
      (kb_llm_generate e prompt max_tokens temp top_k top_p out_text
        ⟨some g_model, some g_ctx⟩).events := by
  have hgt := n_appended_gt e max_tokens.toNat 0 k (by omega)
    (fun j hj => by simpa using heog j hj) (fun j hj => by simpa using hok j hj)
  have hmem := decode_token_mem e g_ctx max_tokens.toNat 0 k [] (by omega)
    (fun j hj => by simpa using heog j hj) (fun j hj => by simpa using hok j hj)
  have := generate_success e prompt max_tokens temp top_k top_p out_text g_model g_ctx hvocab
    hsize hfill hdec hmalloc
  refine ⟨this.1, ⟨n_appended e max_tokens.toNat 0 - (k + 1), ?_⟩, ?_⟩
  · rw [this.2.1]
    have hsplit : n_appended e max_tokens.toNat 0 =
        k + (1 + (n_appended e max_tokens.toNat 0 - (k + 1))) := by omega
    conv_lhs => rw [hsplit]
    rw [fragments_from_append, fragments_from_append]
    simp [fragments_from, fragment]
  · apply this.2.2.2
    simpa using hmem

theorem fragment_appended_as_reported_witness :
    (kb_llm_generate engine_small [72, 105] 5 (.fin 0) 0 (.fin 1) none
        ⟨some 1, some 2⟩).ret = some 1 ∧
    Event.decode_token 2 (engine_small.sampler_sample 1) ∈
      (kb_llm_generate engine_small [72, 105] 5 (.fin 0) 0 (.fin 1) none
        ⟨some 1, some 2⟩).events :=
  ⟨(fragment_appended_as_reported engine_small [72, 105] 5 (.fin 0) 0 (.fin 1) none 1 2 1
      (by decide) (by decide) (by decide) (by decide) (by decide) (by decide) (by decide)
      (by decide)).1,
   (fragment_appended_as_reported engine_small [72, 105] 5 (.fin 0) 0 (.fin 1) none 1 2 1
      (by decide) (by decide) (by decide) (by decide) (by decide) (by decide) (by decide)
      (by decide)).2.2⟩

/-- C5: for every call of `kb_llm_generate` that returns 1, whatever
`max_tokens` and the temperature are, if `llama_token_to_piece` never returns
more than the size of the buffer it was given, then at most
`max (max_tokens, 0)` tokens are sampled, the text stored in `*out_text` is the
concatenation of `N <= max (max_tokens, 0)` fragments, each of at most 128
bytes and none of an end-of-generation token, so the text has at most
`128 * max (max_tokens, 0)` bytes; for `max_tokens <= 0` no token is sampled
and the text is empty. -/
theorem generate_output_bounded (e : GenEngine) (prompt : List Byte) (max_tokens : Int)
    (temp : F32) (top_k : Int) (top_p : F32) (out_text : Option (List Byte)) (s : Session)
    (hret : (kb_llm_generate e prompt max_tokens temp top_k top_p out_text s).ret = some 1)
    (hfit : ∀ i id, (e.token_to_piece i id BUF_SIZE).n ≤ BUF_SIZE) :
    (((kb_llm_generate e prompt max_tokens temp top_k top_p out_text s).events.countP
        Event.isSample : Nat) : Int) ≤ max max_tokens 0 ∧
    (∃ N : Nat, (N : Int) ≤ max max_tokens 0 ∧
      (kb_llm_generate e prompt max_tokens temp top_k top_p out_text s).out_text =
        some (fragments_from e 0 N ++ [0]) ∧
      (∀ j < N, (fragment e j).length ≤ 128 ∧
        e.vocab_is_eog j (e.sampler_sample j) = false) ∧
      ((fragments_from e 0 N).length : Int) ≤ 128 * max max_tokens 0) ∧
    (max_tokens ≤ 0 →
      (kb_llm_generate e prompt max_tokens temp top_k top_p out_text s).events.countP
        Event.isSample = 0 ∧
      (kb_llm_generate e prompt max_tokens temp top_k top_p out_text s).out_text =
        some [0]) := by
  obtain ⟨g_model, g_ctx, rfl, hvocab, hsize, hfill, hdec, hmalloc⟩ :=
    generate_of_ret_one e prompt max_tokens temp top_k top_p out_text s hret
  have hs := generate_success e prompt max_tokens temp top_k top_p out_text g_model g_ctx hvocab
    hsize hfill hdec hmalloc
  have h1 := n_sampled_le e max_tokens.toNat 0
  have h2 := n_appended_le e max_tokens.toNat 0
  have h3 := fragments_from_length_le e 0 (n_appended e max_tokens.toNat 0) hfit
  refine ⟨?_, ⟨n_appended e max_tokens.toNat 0, ?_, hs.2.1, ?_, ?_⟩, ?_⟩
  · rw [hs.2.2.1]; omega
  · omega
  · intro j hj
    refine ⟨fragment_length_le e j hfit, ?_⟩
    simpa using n_appended_not_eog e max_tokens.toNat 0 j hj
  · simp only [BUF_SIZE] at h3
    have h4 : 128 * n_appended e max_tokens.toNat 0 ≤ 128 * max_tokens.toNat :=
      Nat.mul_le_mul_left _ h2
    omega
  · intro hle
    have h0 : max_tokens.toNat = 0 := by omega
    rw [hs.2.2.1, hs.2.1, h0]
    exact ⟨rfl, rfl⟩

theorem generate_output_bounded_witness :
    (kb_llm_generate engine_small [72, 105] 5 (.fin 2) 40 (.fin 1) none
        ⟨some 1, some 2⟩).ret = some 1 ∧
    (((kb_llm_generate engine_small [72, 105] 5 (.fin 2) 40 (.fin 1) none
        ⟨some 1, some 2⟩).events.countP Event.isSample : Nat) : Int) ≤ max 5 0 :=
  ⟨by decide,
   (generate_output_bounded engine_small [72, 105] 5 (.fin 2) 40 (.fin 1) none
      ⟨some 1, some 2⟩ (by decide)
      (fun _ _ => by simp [engine_small, piece_of_text, BUF_SIZE])).1⟩

end KeyboardAI
